import Mathlib

/-!
Verification development for the RXDSEC-CLI agent runtime core.

The Lean definitions below are a shallow embedding of the Python source:

* `src/rxdsec/permissions/engine.py` — permission rules and `check`
* `src/rxdsec/tools/base.py`        — `ToolResult`, parameter validation,
                                       `ToolRegistry.execute`
* `src/rxdsec/agent/session.py`     — token estimation and context pruning
* `src/rxdsec/agent/core.py`        — `parse_tools` and the `run_quest`
                                       iteration loop

Python strings are modelled as Lean `String` (both sequences of unicode
code points, so `len`/slicing agree), machine integers as `Nat`/`Int`
(no overflow is relevant in the modelled code), dictionaries as
association lists, and Python exceptions as explicit `Except` values.
Recursive text scanners are written with an explicit fuel argument so
that every definition is structurally recursive and kernel-evaluable.
-/

namespace RxDsec

/-- Single-quote character as a string, used when rendering Python repr
text without placing an apostrophe inside a string literal. -/
def sq : String := String.mk ['\'']

/-! ## Permissions engine (`src/rxdsec/permissions/engine.py`) -/

/-- Model of `PermissionAction` (engine.py lines 25-29). -/
inductive PermissionAction where
  | allow
  | deny
  | confirm
deriving DecidableEq

/-- Model of `ToolCategory` (engine.py lines 32-38). -/
inductive ToolCategory where
  | read
  | write
  | exec
  | web
  | all
deriving DecidableEq

/-- A permission rule (engine.py lines 41-48).  The `description` field of
the source carries no semantics and is omitted. -/
structure PermissionRule where
  action : PermissionAction
  category : ToolCategory
  pattern : String
  priority : Int := 0
deriving DecidableEq

/-- Fuel-based core of Python `fnmatch.fnmatch` restricted to patterns
built from literals, `*` and `?` — the only pattern syntax occurring in
the repository's rule sets (`[...]` character classes are unused there).
In `fnmatch`, `*` matches any character sequence including `/`; there is
no special `**` treatment.  Fuel `pat.length + s.length + 1` suffices:
every recursive call shrinks `pat.length + s.length` by at least one. -/
def globAux : Nat → List Char → List Char → Bool
  | 0, _, _ => false
  | _ + 1, [], [] => true
  | fuel + 1, '*' :: ps, s =>
      globAux fuel ps s ||
        (match s with
          | [] => false
          | _ :: t => globAux fuel ('*' :: ps) t)
  | fuel + 1, '?' :: ps, _ :: ss => globAux fuel ps ss
  | _ + 1, '?' :: _, [] => false
  | fuel + 1, p :: ps, c :: ss => p == c && globAux fuel ps ss
  | _ + 1, _ :: _, [] => false
  | _ + 1, [], _ :: _ => false

/-- Python `fnmatch.fnmatch(name, pat)` (with the identity `normcase` of
POSIX platforms). -/
def fnmatchB (name pat : String) : Bool :=
  globAux (pat.toList.length + name.toList.length + 1) pat.toList name.toList

/-- The fixed static tool→category table of
`PermissionRule._get_tool_category` (engine.py lines 74-89). -/
def getToolCategory (tool : String) : ToolCategory :=
  if tool ∈ ["read", "read_lines", "grep", "find"] then ToolCategory.read
  else if tool ∈ ["write", "write_lines", "patch"] then ToolCategory.write
  else if tool ∈ ["localexec", "shell", "run_tests"] then ToolCategory.exec
  else if tool ∈ ["webfetch", "download", "web_search"] then ToolCategory.web
  else ToolCategory.all

/-- Python `s.split(":", 1)` on a string known to contain `':'`:
the part before the first colon and the part after it. -/
def splitAtColon (s : String) : String × String :=
  (String.mk (s.toList.takeWhile (· ≠ ':')),
   String.mk ((s.toList.dropWhile (· ≠ ':')).tail))

/-- Model of `PermissionRule.matches` (engine.py lines 50-72). -/
def ruleMatches (r : PermissionRule) (tool resource : String) : Bool :=
  if r.category ≠ ToolCategory.all ∧ getToolCategory tool ≠ r.category then
    false
  else if r.pattern = "*" then
    true
  else if r.pattern.toList.contains ':' then
    let pt := (splitAtColon r.pattern).1
    let pr := (splitAtColon r.pattern).2
    if pt ≠ "*" ∧ ¬ fnmatchB tool pt then false
    else if pr ≠ "*" ∧ ¬ fnmatchB resource pr then false
    else true
  else
    fnmatchB resource r.pattern

/-- Stable insertion of a rule into a list already sorted by descending
priority: the rule goes after every earlier rule of strictly higher
priority and before rules of equal priority that followed it. -/
def insertDesc (r : PermissionRule) : List PermissionRule → List PermissionRule
  | [] => [r]
  | x :: xs => if x.priority > r.priority then x :: insertDesc r xs else r :: x :: xs

/-- Stable sort by descending priority, the effect of
`sorted(effective, key=lambda r: r.priority, reverse=True)` in
`PermissionsConfig.get_effective_rules` (engine.py line 108): Python's
sort is stable, and a stable descending sort is extensionally unique,
so stable insertion sort models it exactly. -/
def sortRulesDesc : List PermissionRule → List PermissionRule
  | [] => []
  | x :: xs => insertDesc x (sortRulesDesc xs)

/-- Model of `PermissionsConfig.get_effective_rules` (engine.py lines 100-108):
user rules with the active preset's rules appended, sorted by
descending priority. -/
def getEffectiveRules (rules presetRules : List PermissionRule) : List PermissionRule :=
  sortRulesDesc (rules ++ presetRules)

/-- The scan inside `PermissionsEngine.check` (engine.py lines 262-283):
first matching rule decides; `allow` ⇒ true, `deny` ⇒ false, `confirm`
⇒ cached decision or (non-interactively) false; no match ⇒ true. -/
def scanRules (cache : List (String × Bool)) (tool resource : String) :
    List PermissionRule → Bool
  | [] => true
  | r :: rest =>
      if ruleMatches r tool resource then
        match r.action with
        | PermissionAction.allow => true
        | PermissionAction.deny => false
        | PermissionAction.confirm =>
            match cache.lookup (tool ++ ":" ++ resource) with
            | some b => b
            | none => false
      else scanRules cache tool resource rest

/-- Model of `PermissionsEngine.check` (engine.py lines 248-283), parametrised by
the loaded rule set, the active preset's rules and the confirmation
cache (the source reads these from YAML files and engine state). -/
def check (rules presetRules : List PermissionRule) (cache : List (String × Bool))
    (tool resource : String) : Bool :=
  scanRules cache tool resource (getEffectiveRules rules presetRules)

/-! ## Tool results and the registry (`src/rxdsec/tools/base.py`) -/

/-- Model of `ToolStatus` (base.py lines 38-45). -/
inductive ToolStatus where
  | success
  | failure
  | permissionDenied
  | timeout
  | validationError
  | notFound
deriving DecidableEq

/-- Model of `ToolResult` (base.py lines 48-66).  `duration_ms` is a wall-clock
float and `metadata` an arbitrary dict; neither carries logic relevant
to the modelled behaviour, so both are omitted. -/
structure ToolResult where
  success : Bool
  output : String
  error : Option String := none
  status : ToolStatus := ToolStatus.success
deriving DecidableEq

/-- Model of `ToolResult.__post_init__` (base.py lines 68-73) applied to the raw
constructor arguments: the only way a `ToolResult` is ever created. -/
def mkToolResult (success : Bool) (output : String) (error : Option String)
    (status : ToolStatus) : ToolResult :=
  if success ∧ status ≠ ToolStatus.success then
    { success := success, output := output, error := error, status := ToolStatus.success }
  else if ¬ success ∧ status = ToolStatus.success then
    { success := success, output := output, error := error, status := ToolStatus.failure }
  else
    { success := success, output := output, error := error, status := status }

/-- Model of `ToolResult.ok` (base.py lines 75-85). -/
def ToolResult.ok (output : String) : ToolResult :=
  mkToolResult true output none ToolStatus.success

/-- Model of `ToolResult.fail` (base.py lines 87-104). -/
def ToolResult.fail (error : String) (output : String := "")
    (status : ToolStatus := ToolStatus.failure) : ToolResult :=
  mkToolResult false output (some error) status

/-- The Python values that can be supplied as tool arguments: strings
(the parser only ever produces strings), ints, bools, `None`, and the
two injected objects (the workspace `Path` and the permissions engine). -/
inductive PyVal where
  | str (s : String)
  | int (n : Int)
  | bool (b : Bool)
  | none
  | workspacePath (p : String)
  | permEngine
deriving DecidableEq

/-- The declared semantic types handled by `ToolParameter.validate`
(base.py lines 135-142): `str`, `int`, `float`, `bool`. -/
inductive ParamType where
  | str
  | int
  | float
  | bool
deriving DecidableEq

/-- Python `isinstance(value, type_hint)` on the modelled values.  Note
`bool` is a subclass of `int` in Python, so a `bool` value is an
instance of `int`. -/
def isInst : PyVal → ParamType → Bool
  | PyVal.str _, ParamType.str => true
  | PyVal.int _, ParamType.int => true
  | PyVal.bool _, ParamType.bool => true
  | PyVal.bool _, ParamType.int => true
  | _, _ => false

/-- Whether Python `int(s)` succeeds on string `s`: optional surrounding
whitespace, an optional sign, then one or more ASCII digits.
(Underscore digit grouping is not modelled; no caller supplies it.) -/
def pyIntParseOk (s : String) : Bool :=
  let core := (s.toList.dropWhile (· = ' ')).reverse.dropWhile (· = ' ') |>.reverse
  let digits := match core with
    | '+' :: rest => rest
    | '-' :: rest => rest
    | rest => rest
  digits ≠ [] && digits.all (·.isDigit)

/-- Whether Python `float(s)` succeeds on string `s`: an optional sign,
then digits with at most one dot (at least one digit overall).
(Exponents, `inf`/`nan` are not modelled; no caller supplies them.) -/
def pyFloatParseOk (s : String) : Bool :=
  let core := (s.toList.dropWhile (· = ' ')).reverse.dropWhile (· = ' ') |>.reverse
  let digits := match core with
    | '+' :: rest => rest
    | '-' :: rest => rest
    | rest => rest
  let intPart := digits.takeWhile (·.isDigit)
  let rest := digits.drop intPart.length
  match rest with
  | [] => digits ≠ []
  | '.' :: frac => (intPart ≠ [] ∨ frac ≠ []) && frac.all (·.isDigit)
  | _ => false

/-- Whether the coercion attempt in `ToolParameter.validate`
(base.py lines 134-144) raises.  `str(value)` and `bool` coercion are
total (`value.lower() in (...)` for strings, `bool(value)` otherwise);
`int`/`float` raise on unparsable strings and on the injected
non-numeric objects.  The coerced value itself is a local variable of
`validate` and is discarded, so only success/failure is observable. -/
def coerceOk (v : PyVal) (t : ParamType) : Bool :=
  match t with
  | ParamType.str => true
  | ParamType.bool => true
  | ParamType.int =>
      match v with
      | PyVal.str s => pyIntParseOk s
      | PyVal.int _ => true
      | PyVal.bool _ => true
      | _ => false
  | ParamType.float =>
      match v with
      | PyVal.str s => pyFloatParseOk s
      | PyVal.int _ => true
      | PyVal.bool _ => true
      | _ => false

/-- Model of `ToolParameter` (base.py lines 118-125).  `description` carries no
semantics and is omitted; `type_hint` is restricted to the four types
`validate` inspects (any other hint passes validation vacuously in the
source and does not occur among the registered tools). -/
structure ToolParameter where
  name : String
  typeHint : ParamType
  required : Bool := true
  default : Option PyVal := Option.none
deriving DecidableEq

/-- Model of `ToolParameter.validate` (base.py lines 127-146).  Its argument is
`args.get(param.name, param.default)`, i.e. `none` here models Python
`None`.  Returns `(valid, error message)`. -/
def validateParam (p : ToolParameter) (value : Option PyVal) : Bool × Option String :=
  if value = Option.none ∧ p.required ∧ p.default = Option.none then
    (false, some ("Required parameter " ++ sq ++ p.name ++ sq ++ " is missing"))
  else
    match value with
    | Option.none => (true, Option.none)
    | some v =>
        if ¬ isInst v p.typeHint then
          if coerceOk v p.typeHint then (true, Option.none)
          else (false, some ("Parameter " ++ sq ++ p.name ++ sq ++ " has wrong type"))
        else (true, Option.none)

/-- A tool handler: the registered Python function.  It receives the
keyword-argument map and either returns a result or raises an
exception carrying the message `str(e)` (possibly empty). -/
def Handler : Type := List (String × PyVal) → Except String ToolResult

/-- Model of `ToolDefinition` (base.py lines 149-158).  `function` is the handler;
`acceptsWorkspace`/`acceptsPermissions` model whether
`inspect.signature` finds a `workspace`/`permissions` parameter
(base.py lines 432-438).  `description`/`category`/`timeout` carry no
logic in `execute` and are omitted. -/
structure ToolDefinition where
  name : String
  function : Handler
  parameters : List ToolParameter := []
  requiresPermission : Bool := true
  acceptsWorkspace : Bool := false
  acceptsPermissions : Bool := false

/-- Python `str(value)` as used by `str(args)` when building the
permission resource string. Python `repr` quotes strings; escaping
inside them is not reproduced (no modelled behaviour depends on it). -/
def pyReprVal : PyVal → String
  | PyVal.str s => sq ++ s ++ sq
  | PyVal.int n => toString n
  | PyVal.bool true => "True"
  | PyVal.bool false => "False"
  | PyVal.none => "None"
  | PyVal.workspacePath p => p
  | PyVal.permEngine => "<PermissionsEngine>"

/-- Python `str(args)` on the argument dict (insertion order). -/
def pyReprArgs (args : List (String × PyVal)) : String :=
  "\x7b" ++ String.intercalate ", "
    (args.map (fun kv => sq ++ kv.1 ++ sq ++ ": " ++ pyReprVal kv.2)) ++ "\x7d"

/-- The resource-derivation chain
`args.get('path', args.get('url', args.get('cmd', str(args))))`
(base.py line 412). -/
def deriveResource (args : List (String × PyVal)) : String :=
  match args.lookup "path" with
  | some (PyVal.str s) => s
  | some v => pyReprVal v
  | Option.none =>
      match args.lookup "url" with
      | some (PyVal.str s) => s
      | some v => pyReprVal v
      | Option.none =>
          match args.lookup "cmd" with
          | some (PyVal.str s) => s
          | some v => pyReprVal v
          | Option.none => pyReprArgs args

/-- Python `dict.__setitem__`: replace the (unique) binding of the key
in place if present, else append the new binding. -/
def setArg : List (String × PyVal) → String → PyVal → List (String × PyVal)
  | [], key, v => [(key, v)]
  | kv :: rest, key, v =>
      if kv.1 = key then (key, v) :: rest else kv :: setArg rest key v

/-- The `call_args` construction of `execute` (base.py lines 431-438):
a copy of `args` with `workspace`/`permissions` injected when the
handler's signature accepts them. -/
def injectArgs (td : ToolDefinition) (workspace : String)
    (args : List (String × PyVal)) : List (String × PyVal) :=
  let a1 := if td.acceptsWorkspace then
    setArg args "workspace" (PyVal.workspacePath workspace) else args
  if td.acceptsPermissions then setArg a1 "permissions" PyVal.permEngine else a1

/-- First failing parameter validation, in declaration order
(base.py lines 420-428). -/
def firstValidationError (params : List ToolParameter)
    (args : List (String × PyVal)) : Option String :=
  match params with
  | [] => Option.none
  | p :: rest =>
      let value := match args.lookup p.name with
        | some v => some v
        | Option.none => p.default
      match validateParam p value with
      | (false, err) => some (err.getD "")
      | (true, _) => firstValidationError rest args

/-- The model of Python `traceback.format_exc()` captured into the
failure result's output: an opaque diagnostic string that embeds the
exception message. -/
def tracebackText (msg : String) : String :=
  "Traceback (most recent call last):\n" ++ msg

/-- Model of `ToolRegistry.execute` (base.py lines 387-459), parametrised by the
registry's tool map (an association list mirroring `self.tools`), the
workspace path and the permission engine's `check` function
(`none` models `self.permissions is None`).

Steps, as in the source: unknown name ⇒ NOT_FOUND; permission check on
the derived resource ⇒ PERMISSION_DENIED; per-parameter validation ⇒
VALIDATION_ERROR; otherwise the handler runs on `args.copy()` plus the
injected `workspace`/`permissions` — a raised exception is caught and
converted to a FAILURE result with `error = str(e)` and the formatted
traceback as output, so `execute` always returns a `ToolResult`. -/
def execute (tools : List (String × ToolDefinition)) (workspace : String)
    (permCheck : Option (String → String → Bool))
    (name : String) (args : List (String × PyVal)) : ToolResult :=
  match tools.lookup name with
  | Option.none =>
      ToolResult.fail ("Tool not found: " ++ name) "" ToolStatus.notFound
  | some td =>
      let permDenied :=
        match permCheck with
        | some ck => td.requiresPermission && ! ck name (deriveResource args)
        | Option.none => false
      if permDenied then
        ToolResult.fail ("Permission denied for " ++ name ++ " on " ++ deriveResource args)
          "" ToolStatus.permissionDenied
      else
        match firstValidationError td.parameters args with
        | some err => ToolResult.fail err "" ToolStatus.validationError
        | Option.none =>
            match td.function (injectArgs td workspace args) with
            | Except.ok r => r
            | Except.error msg =>
                ToolResult.fail msg (tracebackText msg) ToolStatus.failure

/-! ## Session manager (`src/rxdsec/agent/session.py`) -/

/-- A session message (the dicts appended by `add_user`, `add_assistant`,
`add_tool_result`, `add_system`).  The ISO timestamp is wall-clock data
with no logic attached and is omitted; `toolName`/`toolSuccess` are the
extra keys carried only by tool-role entries. -/
structure Msg where
  role : String
  content : String
  toolName : Option String := Option.none
  toolSuccess : Option Bool := Option.none
deriving DecidableEq

/-- Model of `SessionManager.add_tool_result` (session.py lines 77-89): the
tool-role entry built for an executed call's outcome. -/
def mkToolMsg (toolName : String) (success : Bool) (output : String) : Msg :=
  let status := if success then "success" else "error"
  { role := "tool"
    content := "[Tool: " ++ toolName ++ "] (" ++ status ++ ")\n" ++ output
    toolName := some toolName
    toolSuccess := some success }

/-- Model of `add_user` / `add_assistant` entries (session.py lines 59-75). -/
def mkRoleMsg (role content : String) : Msg :=
  { role := role, content := content }

/-- Model of `SessionManager.estimate_tokens` (session.py lines 213-243):
user/assistant content at `len // 3`, tool content at `len // 5`,
anything else at `len // 4`, plus one overhead token per message. -/
def estimateTokens (msgs : List Msg) : Nat :=
  (msgs.map (fun m =>
      if m.role = "user" ∨ m.role = "assistant" then m.content.length / 3
      else if m.role = "tool" then m.content.length / 5
      else m.content.length / 4)).sum
    + msgs.length

/-- Python `list.remove(x)`: delete the first element equal to `x`
(a no-op models the `except ValueError: pass` of the source). -/
def eraseFirst (msgs : List Msg) (x : Msg) : List Msg :=
  match msgs with
  | [] => []
  | m :: rest => if m = x then rest else m :: eraseFirst rest x

/-- One removal phase of `prune_context` (session.py lines 155-171):
`while estimate > budget and len(local) > floor: remove local.pop(0)`.
`local` is the snapshot list of candidate messages taken before the
loop; each iteration also removes the first equal entry from the live
message list. -/
def dropPhase (budget floor : Nat) : List Msg → List Msg → List Msg
  | [], msgs => msgs
  | t :: rest, msgs =>
      if budget < estimateTokens msgs ∧ floor < (t :: rest).length then
        dropPhase budget floor rest (eraseFirst msgs t)
      else msgs

/-- The truncation marker of `_truncate_long_messages` (session.py line 206). -/
def truncMarker : String := "\n... (truncated for context)"

/-- The truncated form of a message content
(`_truncate_long_messages`, session.py lines 204-206):
`content[:max(200, len(content)//2)]` with the marker appended. -/
def truncContent (c : String) : String :=
  c.take (max 200 (c.length / 2)) ++ truncMarker

/-- Role predicate for tool-role entries. -/
def isToolRole (m : Msg) : Bool := m.role = "tool"

/-- Role predicate for conversational (user/assistant) entries. -/
def isConvRole (m : Msg) : Bool := m.role = "user" || m.role = "assistant"

/-- Candidate collection of `_truncate_long_messages` (session.py lines
189-192): indices of user/assistant/tool messages longer than 200
characters, paired with their length. -/
def truncCandidates (msgs : List Msg) : List (Nat × Nat) :=
  (msgs.enum.filter (fun p =>
      (p.2.role = "user" ∨ p.2.role = "assistant" ∨ p.2.role = "tool")
        ∧ 200 < p.2.content.length)).map
    (fun p => (p.1, p.2.content.length))

/-- Stable insertion by descending second component, modelling
`message_indices.sort(key=lambda x: x[1], reverse=True)` (stable). -/
def insertDescLen (x : Nat × Nat) : List (Nat × Nat) → List (Nat × Nat)
  | [] => [x]
  | y :: ys => if y.2 > x.2 then y :: insertDescLen x ys else x :: y :: ys

/-- Stable sort by descending length. -/
def sortDescLen : List (Nat × Nat) → List (Nat × Nat)
  | [] => []
  | x :: xs => insertDescLen x (sortDescLen xs)

/-- In-place truncation `self.messages[idx]["content"] = truncated`
(session.py line 209): replace the content of the entry at the index. -/
def applyTrunc : List Msg → Nat → List Msg
  | [], _ => []
  | m :: rest, 0 => { m with content := truncContent m.content } :: rest
  | m :: rest, i + 1 => m :: applyTrunc rest i

/-- The truncation loop of `_truncate_long_messages` (session.py lines
198-209): walk the sorted candidates, stopping (`break`) as soon as the
estimate is within the target. -/
def truncLoop (target : Nat) : List Nat → List Msg → List Msg
  | [], msgs => msgs
  | i :: rest, msgs =>
      if estimateTokens msgs ≤ target then msgs
      else truncLoop target rest (applyTrunc msgs i)

/-- Model of `SessionManager._truncate_long_messages` (session.py lines 179-211). -/
def truncateLongMessages (target : Nat) (msgs : List Msg) : List Msg :=
  if estimateTokens msgs ≤ target then msgs
  else truncLoop target ((sortDescLen (truncCandidates msgs)).map (·.1)) msgs

/-- The state of the message list after the two removal phases of
`prune_context` (session.py lines 150-171): tool-role entries removed
oldest-first down to a floor of 2, then user/assistant entries removed
oldest-first down to a floor of 5.  Both candidate snapshots are taken
from the original list, as in the source. -/
def afterRemovals (budget : Nat) (msgs : List Msg) : List Msg :=
  let toolSnap := msgs.filter isToolRole
  let uaSnap := msgs.filter isConvRole
  dropPhase budget 5 uaSnap (dropPhase budget 2 toolSnap msgs)

/-- Model of `SessionManager.prune_context` (session.py lines 132-177): a no-op
within budget, otherwise the two removal phases followed, if still over
budget, by in-place truncation of the longest messages. -/
def pruneContext (budget : Nat) (msgs : List Msg) : List Msg :=
  if estimateTokens msgs ≤ budget then msgs
  else
    let m2 := afterRemovals budget msgs
    if budget < estimateTokens m2 then truncateLongMessages budget m2 else m2

/-! ## Protocol parser (`src/rxdsec/agent/core.py` lines 78-93, 499-548)

The three `TOOL_PATTERNS` regexes and the `ARG_PATTERN` regex are
modelled operationally.  Each pattern's leftmost-match semantics
(`re.finditer`: try every start offset left to right, resume after a
match) is implemented over `List Char` with explicit fuel. -/

/-- Python regex `\w` on the ASCII texts at hand. -/
def isWordChar (c : Char) : Bool := c.isAlphanum || c = '_'

/-- Python regex `\s` on the ASCII texts at hand. -/
def isSpaceChar (c : Char) : Bool :=
  c = ' ' || c = '\t' || c = '\n' || c = '\r' || c = '\x0b' || c = '\x0c'

/-- Maximal `\w+` run at the head of the text. -/
def takeWordRun (s : List Char) : List Char := s.takeWhile isWordChar

/-- Skip a maximal `\s*` run. -/
def dropSpaces (s : List Char) : List Char := s.dropWhile isSpaceChar

/-- The argument-body group `((?:[^()]*|\([^()]*\))*)` followed by
`\s*\)` of every `TOOL_PATTERNS` regex, applied right after the opening
parenthesis: sequences of non-parenthesis characters and depth-one
parenthesised groups, up to the closing parenthesis.  Returns the group
text and the text after the closing parenthesis, or `none` when the
regex cannot complete at this start (unclosed or nested parentheses). -/
def scanBody : Nat → List Char → Option (List Char × List Char)
  | 0, _ => Option.none
  | _ + 1, [] => Option.none
  | fuel + 1, c :: rest =>
      if c = ')' then some ([], rest)
      else if c = '(' then
        let inner := rest.takeWhile (fun ch => ch ≠ '(' ∧ ch ≠ ')')
        match rest.drop inner.length with
        | ')' :: tail =>
            match scanBody fuel tail with
            | some (g, r) => some ('(' :: (inner ++ ')' :: g), r)
            | Option.none => Option.none
        | _ => Option.none
      else
        match scanBody fuel rest with
        | some (g, r) => some (c :: g, r)
        | Option.none => Option.none

/-- Shared tail of all three tool-call regexes: `\s*\(` then the body
group then `\)`, starting right after the tool name.  Given the whole
suffix `s` at the match start and the text `afterName` following the
name, returns `(argstr, match length)`. -/
def matchCallTail (s afterName : List Char) : Option (List Char × Nat) :=
  match dropSpaces afterName with
  | '(' :: s4 =>
      match scanBody (s4.length + 1) s4 with
      | some (g, rest) => some (g, s.length - rest.length)
      | Option.none => Option.none
  | _ => Option.none

/-- Matcher for `TOOL_PATTERNS[0]`,
`Tool:\s*(\w+)\s*\(((?:[^()]*|\([^()]*\))*)\s*\)`, at a fixed start
position.  Returns `(name, argstr, match length)`. -/
def matchTool1 (_prev : Option Char) (s : List Char) :
    Option (List Char × List Char × Nat) :=
  if ("Tool:".toList).isPrefixOf s then
    let s2 := dropSpaces (s.drop 5)
    let w := takeWordRun s2
    if w = [] then Option.none
    else
      match matchCallTail s (s2.drop w.length) with
      | some (g, len) => some (w, g, len)
      | Option.none => Option.none
  else Option.none

/-- Matcher for `TOOL_PATTERNS[1]`, the `\$\s*(\w+)\s*\(...\)` form. -/
def matchTool2 (_prev : Option Char) (s : List Char) :
    Option (List Char × List Char × Nat) :=
  match s with
  | '$' :: s1 =>
      let s2 := dropSpaces s1
      let w := takeWordRun s2
      if w = [] then Option.none
      else
        match matchCallTail s (s2.drop w.length) with
        | some (g, len) => some (w, g, len)
        | Option.none => Option.none
  | _ => Option.none

/-- The fixed alternation of `TOOL_PATTERNS[2]`, in source order. -/
def bareNames : List (List Char) :=
  ["read".toList, "write".toList, "grep".toList, "find".toList,
   "shell".toList, "localexec".toList, "webfetch".toList, "patch".toList]

/-- Alternation attempt for `TOOL_PATTERNS[2]`: regex alternation tries
each branch in order and backtracks to the next branch when the rest of
the pattern fails (no branch is a prefix of another, so at most one
branch can consume the text anyway). -/
def tryBareAlts (s : List Char) : List (List Char) → Option (List Char × List Char × Nat)
  | [] => Option.none
  | a :: rest =>
      if a.isPrefixOf s then
        match matchCallTail s (s.drop a.length) with
        | some (g, len) => some (a, g, len)
        | Option.none => tryBareAlts s rest
      else tryBareAlts s rest

/-- Matcher for `TOOL_PATTERNS[2]`,
`\b(read|write|grep|find|shell|localexec|webfetch|patch)\s*\(...\)`:
the word boundary holds when the preceding character (if any) is not a
word character (every branch begins with a word character). -/
def matchTool3 (prev : Option Char) (s : List Char) :
    Option (List Char × List Char × Nat) :=
  let boundary := match prev with
    | Option.none => true
    | some c => ¬ isWordChar c
  if boundary then tryBareAlts s bareNames else Option.none

/-- One regex match as produced by `finditer`: start offset, the two
capture groups, and the full matched text (`group(0)`). -/
structure RawMatch where
  start : Nat
  name : List Char
  argstr : List Char
  raw : List Char
deriving DecidableEq

/-- Fuel-based `re.finditer`: try the matcher at each start offset left
to right; on a match, record it and resume right after the matched
span (every match here has positive length). -/
def findIterAux (f : Option Char → List Char → Option (List Char × List Char × Nat)) :
    Nat → Nat → Option Char → List Char → List RawMatch
  | 0, _, _, _ => []
  | fuel + 1, pos, prev, s =>
      match s with
      | [] => []
      | c :: rest =>
          match f prev s with
          | some (nm, g, len) =>
              { start := pos, name := nm, argstr := g, raw := s.take len } ::
                findIterAux f fuel (pos + len) (s.get? (len - 1)) (s.drop len)
          | Option.none => findIterAux f fuel (pos + 1) (some c) rest

/-- All matches of one pattern over the text, leftmost first. -/
def findIter (f : Option Char → List Char → Option (List Char × List Char × Nat))
    (text : List Char) : List RawMatch :=
  findIterAux f (text.length + 1) 0 Option.none text

/-- Lazy bare-value branch `(\S+?)(?=[,\s\)]|$)` of `ARG_PATTERN`: the
shortest non-empty run of non-space characters whose next character is
a comma, whitespace or closing parenthesis (or the end of the text). -/
def bareValue : Nat → List Char → Option (List Char)
  | 0, _ => Option.none
  | _ + 1, [] => Option.none
  | fuel + 1, c :: rest =>
      if isSpaceChar c then Option.none
      else
        match rest with
        | [] => some [c]
        | d :: _ =>
            if d = ',' ∨ d = ')' ∨ isSpaceChar d then some [c]
            else match bareValue fuel rest with
              | some v => some (c :: v)
              | Option.none => Option.none

/-- Value alternatives of `ARG_PATTERN` after `=\s*`:
`"([^"]*?)"` then `\'([^\']*?)\'` then the lazy bare branch.  Given the
whole suffix `s` at the key's start and the text `s3` at the value's
start, returns `(raw value, match length)`. -/
def matchArgValue (s s3 : List Char) : Option (List Char × Nat) :=
  let bare := fun (u : List Char) =>
    match bareValue (u.length + 1) u with
    | some v => some (v, s.length - (u.drop v.length).length)
    | Option.none => Option.none
  match s3 with
  | '"' :: t =>
      let inner := t.takeWhile (· ≠ '"')
      if (t.drop inner.length) = [] then bare s3
      else some (inner, s.length - (t.drop (inner.length + 1)).length)
  | '\'' :: t =>
      let inner := t.takeWhile (· ≠ '\'')
      if (t.drop inner.length) = [] then bare s3
      else some (inner, s.length - (t.drop (inner.length + 1)).length)
  | u => bare u

/-- Matcher for `ARG_PATTERN`,
`(\w+)\s*=\s*(?:"([^"]*?)"|\'([^\']*?)\'|(\S+?)(?=[,\s\)]|$))`,
at a fixed start position: key, raw (still escaped) value, length. -/
def matchArg (_prev : Option Char) (s : List Char) :
    Option (List Char × List Char × Nat) :=
  let w := takeWordRun s
  if w = [] then Option.none
  else
    match dropSpaces (s.drop w.length) with
    | '=' :: s2 =>
        match matchArgValue s (dropSpaces s2) with
        | some (v, len) => some (w, v, len)
        | Option.none => Option.none
    | _ => Option.none

/-- Python `str.replace(pat, rep)`: left-to-right, non-overlapping, the
replacement text is not rescanned. -/
def replaceAll (pat rep : List Char) : Nat → List Char → List Char
  | _, [] => []
  | 0, s => s
  | fuel + 1, c :: rest =>
      if pat.isPrefixOf (c :: rest) then
        rep ++ replaceAll pat rep fuel ((c :: rest).drop pat.length)
      else c :: replaceAll pat rep fuel rest

/-- The unescaping chain of `parse_tools` (core.py line 534):
`value.replace('\\n','\n').replace('\\t','\t').replace('\\"','"')
.replace("\\'","'")`, applied left to right. -/
def unescapeValue (v : List Char) : List Char :=
  let r := fun (pat rep s : List Char) => replaceAll pat rep (s.length + 1) s
  r ['\\', '\''] ['\'']
    (r ['\\', '"'] ['"']
      (r ['\\', 't'] ['\t']
        (r ['\\', 'n'] ['\n'] v)))

/-- Python dict assignment `args[key] = value` on an insertion-ordered
association list: overwrite in place or append. -/
def setStrArg (args : List (String × String)) (key v : String) :
    List (String × String) :=
  if (args.lookup key).isSome then
    args.map (fun kv => if kv.1 = key then (kv.1, v) else kv)
  else args ++ [(key, v)]

/-- The argument-parsing loop of `parse_tools` (core.py lines 528-535):
`ARG_PATTERN.finditer(args_str)` feeding a dict, values unescaped. -/
def parseArgs (argstr : List Char) : List (String × String) :=
  (findIter matchArg argstr).foldl
    (fun acc m => setStrArg acc (String.mk m.name) (String.mk (unescapeValue m.argstr)))
    []

/-- Model of the `ToolCall` dataclass (core.py lines 52-58).  `args` is the
insertion-ordered dict of parsed arguments. -/
structure ToolCall where
  name : String
  args : List (String × String)
  raw : String
  lineNumber : Nat := 0
deriving DecidableEq

/-- The per-match body of `parse_tools` (core.py lines 514-545): skip
start offsets already claimed (the offset is claimed even when the tool
name turns out to be unknown, exactly as in the source, where
`seen_positions.add` precedes the registry lookup); drop unknown names;
otherwise parse the arguments and record the 1-based line number. -/
def processMatches (knownTools : List String) (text : List Char) :
    List RawMatch → List Nat × List ToolCall → List Nat × List ToolCall
  | [], acc => acc
  | m :: rest, (seen, calls) =>
      if m.start ∈ seen then processMatches knownTools text rest (seen, calls)
      else
        let seen := seen ++ [m.start]
        if String.mk m.name ∈ knownTools then
          let call : ToolCall :=
            { name := String.mk m.name
              args := parseArgs m.argstr
              raw := String.mk m.raw
              lineNumber := (text.take m.start).count '\n' + 1 }
          processMatches knownTools text rest (seen, calls ++ [call])
        else processMatches knownTools text rest (seen, calls)

/-- Model of `RxDsecAgent.parse_tools` (core.py lines 499-548), parametrised by
the registry's known tool names (`self.tools.get(name)` succeeds exactly
for registered names).  The three grammars run in priority order over
the same text, sharing the claimed-start-offset set. -/
def parseTools (knownTools : List String) (text : String) : List ToolCall :=
  let chars := text.toList
  let acc1 := processMatches knownTools chars (findIter matchTool1 chars) ([], [])
  let acc2 := processMatches knownTools chars (findIter matchTool2 chars) acc1
  (processMatches knownTools chars (findIter matchTool3 chars) acc2).2

/-! ## Quest orchestrator (`src/rxdsec/agent/core.py` lines 300-443) -/

/-- Fuel-free infix test: whether `needle` occurs inside the list. -/
def hasInfixRun (needle : List Char) : List Char → Bool
  | [] => needle.isPrefixOf []
  | c :: rest => needle.isPrefixOf (c :: rest) || hasInfixRun needle rest

/-- Model of `RxDsecAgent._is_task_complete` (core.py lines 484-497):
case-insensitive substring test against the fixed completion markers. -/
def isTaskComplete (response : String) : Bool :=
  let lower := response.toList.map Char.toLower
  ["task is complete", "task complete", "successfully completed",
   "all steps done", "finished", "all done", "quest complete"].any
    (fun m => hasInfixRun m.toList lower)

/-- One entry of `step_result["tools"]` (core.py lines 394-399): note the
output is truncated to 500 characters there. -/
structure ToolRec where
  name : String
  args : List (String × String)
  success : Bool
  output : String
deriving DecidableEq

/-- One entry of `result["steps"]`. -/
structure QuestStep where
  iteration : Nat
  response : String
  tools : List ToolRec
deriving DecidableEq

/-- The mutable quest bookkeeping of `run_quest`: the loop counters, the
fields of the `result` dict the loop updates, and the session transcript.
`done` models leaving the `while` loop through `break`. -/
structure QuestState where
  iteration : Nat := 0
  effectiveTurns : Nat := 0
  sessionMsgs : List Msg := []
  steps : List QuestStep := []
  toolsUsed : List String := []
  filesModified : List String := []
  success : Bool := false
  done : Bool := false
deriving DecidableEq

/-- One `ITERATING` cycle of `run_quest` (core.py lines 346-423),
parametrised by the registry's known tool names and by the per-call
executor `execF` (the composition of permission check and
`ToolRegistry.execute` performed by `_execute_tool`; the orchestrator
reads only `success` and `output` from it).  `response` is the backend
text returned by `_generate_complete`, which also appends it to the
session as an assistant entry.

Mirrors the source exactly, including its use of the `for`-loop
variable after the loop: the file-modification tracking and the
`session.add_tool_result` call sit inside the
`if has_substantive_action or not tool_calls:` block and see only the
final element of `tool_calls`. -/
def questCycle (knownTools : List String) (execF : ToolCall → ToolResult)
    (response : String) (s : QuestState) : QuestState :=
  let s := { s with
    iteration := s.iteration + 1
    sessionMsgs := s.sessionMsgs ++ [mkRoleMsg "assistant" response] }
  match parseTools knownTools response with
  | [] =>
      if isTaskComplete response then { s with success := true, done := true }
      else
        { s with
          steps := s.steps ++ [{ iteration := s.iteration, response := response, tools := [] }]
          effectiveTurns := s.effectiveTurns + 1 }
  | c0 :: restCalls =>
      let calls := c0 :: restCalls
      let hasSubstantive := calls.any (fun c => c.name ≠ "todowrite")
      let recs : List ToolRec := calls.map (fun c =>
        { name := c.name, args := c.args, success := (execF c).success,
          output := (execF c).output.take 500 })
      let s := { s with toolsUsed := s.toolsUsed ++ calls.map ToolCall.name }
      let lastCall := (c0 :: restCalls).getLast (List.cons_ne_nil c0 restCalls)
      let s :=
        if hasSubstantive then
          let lastRes := execF lastCall
          let fm :=
            if lastCall.name ∈ ["write", "write_lines", "patch"] then
              let path := (lastCall.args.lookup "path").getD ""
              if path ≠ "" ∧ path ∉ s.filesModified then s.filesModified ++ [path]
              else s.filesModified
            else s.filesModified
          { s with
            effectiveTurns := s.effectiveTurns + 1
            filesModified := fm
            sessionMsgs := s.sessionMsgs ++
              [mkToolMsg lastCall.name lastRes.success lastRes.output] }
        else s
      { s with
        steps := s.steps ++ [{ iteration := s.iteration, response := response, tools := recs }] }

/-- The `while effective_turns < max_iterations:` loop of `run_quest`
(core.py line 346), unrolled for a given number of raw iterations.
`respF i` is the backend response of the cycle whose raw iteration
counter was `i` on entry.  The loop has no other exit than the guard
and the `break` recorded in `done`; running it with any fuel `n`
therefore reproduces the first `n` raw iterations faithfully. -/
def questLoop (knownTools : List String) (execF : ToolCall → ToolResult)
    (respF : Nat → String) (maxIter : Nat) : Nat → QuestState → QuestState
  | 0, s => s
  | n + 1, s =>
      if s.done ∨ maxIter ≤ s.effectiveTurns then s
      else questLoop knownTools execF respF maxIter n
        (questCycle knownTools execF (respF s.iteration) s)

/-- Whether a content string ends with the truncation marker — the
observable trace that an entry was shortened in place by
`_truncate_long_messages` rather than removed. -/
def endsWithMarker (c : String) : Bool :=
  truncMarker.toList.reverse.isPrefixOf c.toList.reverse

/-- How an entry surviving the removal phases relates to its final form
after the truncation phase: role and tool metadata unchanged, content
either untouched or truncated in place (carrying the marker). -/
def truncRel (a b : Msg) : Prop :=
  b.role = a.role ∧ b.toolName = a.toolName ∧ b.toolSuccess = a.toolSuccess ∧
    (b.content = a.content ∨ endsWithMarker b.content = true)

/-! ## Theorems

Shared helper lemmas first, then one theorem per verified claim. -/

theorem mem_of_mem_insertDesc {r x : PermissionRule} :
    ∀ {l : List PermissionRule}, x ∈ insertDesc r l → x = r ∨ x ∈ l := by
  intro l
  induction l with
  | nil => simp [insertDesc]
  | cons y ys ih =>
      simp only [insertDesc]
      split
      · intro h
        rcases List.mem_cons.1 h with h | h
        · exact Or.inr (List.mem_cons.2 (Or.inl h))
        · rcases ih h with h | h
          · exact Or.inl h
          · exact Or.inr (List.mem_cons.2 (Or.inr h))
      · intro h
        rcases List.mem_cons.1 h with h | h
        · exact Or.inl h
        · exact Or.inr h

theorem mem_of_mem_sortRulesDesc {x : PermissionRule} :
    ∀ {l : List PermissionRule}, x ∈ sortRulesDesc l → x ∈ l := by
  intro l
  induction l with
  | nil => simp [sortRulesDesc]
  | cons y ys ih =>
      intro h
      rcases mem_of_mem_insertDesc h with h | h
      · exact h ▸ List.mem_cons_self y ys
      · exact List.mem_cons.2 (Or.inr (ih h))

theorem scanRules_of_no_match (cache : List (String × Bool)) (tool resource : String) :
    ∀ rs : List PermissionRule, (∀ r ∈ rs, ruleMatches r tool resource = false) →
      scanRules cache tool resource rs = true := by
  intro rs
  induction rs with
  | nil => intro _; rfl
  | cons r rest ih =>
      intro h
      have hr : ruleMatches r tool resource = false := h r (List.mem_cons_self r rest)
      simp only [scanRules, hr]
      exact ih (fun r' hm => h r' (List.mem_cons.2 (Or.inr hm)))

/-- C5: for every rule set and every (tool, resource) pair such that no
rule in the effective rule set matches the pair, `check` returns true —
the default-allow invariant of `PermissionsEngine.check`. -/
theorem c5_no_matching_rule_default_allow
    (rules presetRules : List PermissionRule) (cache : List (String × Bool))
    (tool resource : String)
    (h : ∀ r ∈ rules ++ presetRules, ruleMatches r tool resource = false) :
    check rules presetRules cache tool resource = true := by
  unfold check getEffectiveRules
  exact scanRules_of_no_match cache tool resource _
    (fun r hm => h r (mem_of_mem_sortRulesDesc hm))

/-- Closed witness for C5: a write-category deny rule does not match a
read-category tool, so `check` falls through to the default allow. -/
theorem c5_no_matching_rule_default_allow_witness :
    (∀ r ∈ ([{ action := PermissionAction.deny, category := ToolCategory.write,
               pattern := "**/*", priority := 10 }] ++
            ([] : List PermissionRule)),
        ruleMatches r "read" "main.py" = false) ∧
    check [{ action := PermissionAction.deny, category := ToolCategory.write,
             pattern := "**/*", priority := 10 }] [] [] "read" "main.py" = true :=
  ⟨by decide,
   c5_no_matching_rule_default_allow _ _ _ _ _ (by decide)⟩

/-- C4 counterexample: with the claimed effective rule set, the source
returns true — not false — for `check("write", ".env")`, because Python
`fnmatch` gives `*` no path-aware meaning: the pattern `**/.env*`
requires a literal `/` in the resource, which `.env` lacks, so no rule
matches and the default allow applies. -/
theorem c4_check_dotenv_counterexample :
    check [{ action := PermissionAction.deny, category := ToolCategory.write,
             pattern := "**/.env*", priority := 10 },
           { action := PermissionAction.allow, category := ToolCategory.write,
             pattern := "**/*.py", priority := 0 }] [] [] "write" ".env" = true := by
  decide

/-- C4 amended: with the rule set
`[deny write "**/.env*" priority 10, allow write "**/*.py" priority 0]`,
both `check("write", ".env")` and `check("write", "app.py")` return true
(neither slash-less resource is matched by any rule, so the default
allow decides); on resources containing a slash the rules take effect:
`check("write", "sub/.env")` is false and `check("write", "sub/app.py")`
is true. -/
theorem c4_check_glob_results :
    check [{ action := PermissionAction.deny, category := ToolCategory.write,
             pattern := "**/.env*", priority := 10 },
           { action := PermissionAction.allow, category := ToolCategory.write,
             pattern := "**/*.py", priority := 0 }] [] [] "write" ".env" = true ∧
    check [{ action := PermissionAction.deny, category := ToolCategory.write,
             pattern := "**/.env*", priority := 10 },
           { action := PermissionAction.allow, category := ToolCategory.write,
             pattern := "**/*.py", priority := 0 }] [] [] "write" "app.py" = true ∧
    check [{ action := PermissionAction.deny, category := ToolCategory.write,
             pattern := "**/.env*", priority := 10 },
           { action := PermissionAction.allow, category := ToolCategory.write,
             pattern := "**/*.py", priority := 0 }] [] [] "write" "sub/.env" = false ∧
    check [{ action := PermissionAction.deny, category := ToolCategory.write,
             pattern := "**/.env*", priority := 10 },
           { action := PermissionAction.allow, category := ToolCategory.write,
             pattern := "**/*.py", priority := 0 }] [] [] "write" "sub/app.py" = true := by
  decide

/-- C7: every constructed `ToolResult` satisfies status = SUCCESS iff
success = true, for all combinations of constructor arguments —
`__post_init__` normalises any inconsistent status. -/
theorem c7_status_success_iff_success (su : Bool) (o : String)
    (e : Option String) (st : ToolStatus) :
    (mkToolResult su o e st).status = ToolStatus.success ↔
      (mkToolResult su o e st).success = true := by
  cases su <;> cases st <;> simp [mkToolResult]

/-- C3 counterexample: parsing the claimed two-call text with known
tools read and grep yields four calls, not two.  The bare-name grammar
(`TOOL_PATTERNS[2]`) matches `read(...)`/`grep(...)` at the offset of
the name itself, which differs from the offset of the `Tool: ` prefix
claimed by the higher-priority grammar, so the start-offset dedup does
not suppress the duplicates. -/
theorem c3_parse_yields_four_calls :
    (parseTools ["read", "grep"]
      "Tool: read(path=\"a.py\")\nTool: grep(pattern=\"foo\", path_glob=\"**/*.py\")").length
      = 4 := by
  decide

/-- C3 amended: parsing that text with known tools read and grep yields
exactly four calls — the two prefixed-grammar calls in textual order
with the claimed arguments, followed by the same two calls again from
the bare-name grammar (whose matches start at the name, an offset not
claimed by the prefixed grammar). -/
theorem c3_parse_result :
    parseTools ["read", "grep"]
      "Tool: read(path=\"a.py\")\nTool: grep(pattern=\"foo\", path_glob=\"**/*.py\")"
      = [{ name := "read", args := [("path", "a.py")],
           raw := "Tool: read(path=\"a.py\")", lineNumber := 1 },
         { name := "grep", args := [("pattern", "foo"), ("path_glob", "**/*.py")],
           raw := "Tool: grep(pattern=\"foo\", path_glob=\"**/*.py\")", lineNumber := 2 },
         { name := "read", args := [("path", "a.py")],
           raw := "read(path=\"a.py\")", lineNumber := 1 },
         { name := "grep", args := [("pattern", "foo"), ("path_glob", "**/*.py")],
           raw := "grep(pattern=\"foo\", path_glob=\"**/*.py\")", lineNumber := 2 }] := by
  decide

/-- C6 counterexample: a handler that raises an exception whose message
is empty (Python `raise ValueError()` has `str(e) = ""`) still yields a
contained FAILURE result, but its error string is empty — the claim's
"non-empty error string" does not hold. -/
theorem c6_empty_exception_message_gives_empty_error :
    (execute [("boom", { name := "boom",
                         function := fun _ => Except.error "" })]
        "/ws" (some (fun _ _ => true)) "boom" []).success = false ∧
    (execute [("boom", { name := "boom",
                         function := fun _ => Except.error "" })]
        "/ws" (some (fun _ _ => true)) "boom" []).error = some "" := by
  constructor <;> rfl

/-- C6 amended: for every registered tool whose handler raises,
`execute` returns (never raises — it is a total function into
`ToolResult`) a FAILURE result with success = false and error equal to
the exception's message, which is non-empty exactly when the message
is. -/
theorem c6_handler_exception_contained
    (tools : List (String × ToolDefinition)) (workspace : String)
    (permCheck : Option (String → String → Bool)) (name : String)
    (args : List (String × PyVal)) (td : ToolDefinition) (msg : String)
    (hlook : tools.lookup name = some td)
    (hperm : (match permCheck with
              | some ck => td.requiresPermission && ! ck name (deriveResource args)
              | Option.none => false) = false)
    (hvalid : firstValidationError td.parameters args = Option.none)
    (hraise : td.function (injectArgs td workspace args) = Except.error msg) :
    execute tools workspace permCheck name args =
      ToolResult.fail msg (tracebackText msg) ToolStatus.failure ∧
    (execute tools workspace permCheck name args).success = false ∧
    (execute tools workspace permCheck name args).error = some msg := by
  have hres : execute tools workspace permCheck name args =
      ToolResult.fail msg (tracebackText msg) ToolStatus.failure := by
    unfold execute
    rw [hlook]
    simp only [hperm, if_false, hvalid, hraise, Bool.false_eq_true]
  refine ⟨hres, ?_, ?_⟩ <;> rw [hres] <;> rfl

/-- Closed witness for C6: a concrete registry whose single tool raises
the message "kaboom"; all hypotheses hold definitionally and the
contained failure result carries that message. -/
theorem c6_handler_exception_contained_witness :
    ([("boom", ({ name := "boom",
                  function := fun _ => Except.error "kaboom" } : ToolDefinition))].lookup
        "boom" = some ({ name := "boom",
                         function := fun _ => Except.error "kaboom" } : ToolDefinition)) ∧
    (execute [("boom", { name := "boom",
                         function := fun _ => Except.error "kaboom" })]
        "/ws" (some (fun _ _ => true)) "boom" [] =
      ToolResult.fail "kaboom" (tracebackText "kaboom") ToolStatus.failure ∧
    (execute [("boom", { name := "boom",
                         function := fun _ => Except.error "kaboom" })]
        "/ws" (some (fun _ _ => true)) "boom" []).success = false ∧
    (execute [("boom", { name := "boom",
                         function := fun _ => Except.error "kaboom" })]
        "/ws" (some (fun _ _ => true)) "boom" []).error = some "kaboom") :=
  ⟨rfl,
   c6_handler_exception_contained _ _ _ _ _ _ _ rfl rfl rfl rfl⟩

theorem lookup_setArg_ne (key : String) (v : PyVal) (k : String) (h : k ≠ key) :
    ∀ args : List (String × PyVal), (setArg args key v).lookup k = args.lookup k := by
  intro args
  have hbeq : (k == key) = false := by simp [h]
  induction args with
  | nil => simp [setArg, List.lookup, hbeq]
  | cons kv rest ih =>
      by_cases hk : kv.1 = key
      · simp only [setArg, hk, if_true]
        have hbeq : (k == key) = false := by
          simp [h]
        have hbeq2 : (k == kv.1) = false := by
          simp [hk, h]
        simp [List.lookup, hbeq, hbeq2]
      · simp only [setArg, hk, if_false]
        cases kvs : (k == kv.1) <;> simp [List.lookup, kvs, ih]

/-- C10: the type coercion inside parameter validation is check-only.
For every call that passes the lookup, permission and validation steps,
`execute` invokes the handler on the originally supplied argument map —
extended only by the injected `workspace`/`permissions` bindings, with
every other key bound to its original (uncoerced) value — and returns
the handler's outcome (a raised exception becoming a FAILURE result). -/
theorem c10_validation_coercion_check_only
    (tools : List (String × ToolDefinition)) (workspace : String)
    (permCheck : Option (String → String → Bool)) (name : String)
    (args : List (String × PyVal)) (td : ToolDefinition)
    (hlook : tools.lookup name = some td)
    (hperm : (match permCheck with
              | some ck => td.requiresPermission && ! ck name (deriveResource args)
              | Option.none => false) = false)
    (hvalid : firstValidationError td.parameters args = Option.none) :
    (execute tools workspace permCheck name args =
       match td.function (injectArgs td workspace args) with
       | Except.ok r => r
       | Except.error msg => ToolResult.fail msg (tracebackText msg) ToolStatus.failure) ∧
    (∀ k : String, k ≠ "workspace" → k ≠ "permissions" →
       (injectArgs td workspace args).lookup k = args.lookup k) := by
  constructor
  · unfold execute
    rw [hlook]
    simp only [hperm, if_false, hvalid, Bool.false_eq_true]
  · intro k hkw hkp
    unfold injectArgs
    cases hw : td.acceptsWorkspace <;> cases hp : td.acceptsPermissions <;>
      simp [lookup_setArg_ne _ _ _ hkw, lookup_setArg_ne _ _ _ hkp]

/-- Closed witness for C10: an int-typed parameter supplied as the
string "42" passes validation (the coercion check succeeds) and, by the
theorem, the handler still receives the original argument map — in
particular the binding of "n" is still the string "42". -/
theorem c10_validation_coercion_check_only_witness :
    ([("calc", ({ name := "calc",
                  function := fun a => Except.ok (ToolResult.ok (pyReprArgs a)),
                  parameters := [{ name := "n", typeHint := ParamType.int }],
                  requiresPermission := false } : ToolDefinition))].lookup "calc" =
        some ({ name := "calc",
                function := fun a => Except.ok (ToolResult.ok (pyReprArgs a)),
                parameters := [{ name := "n", typeHint := ParamType.int }],
                requiresPermission := false } : ToolDefinition)) ∧
    (firstValidationError
        [{ name := "n", typeHint := ParamType.int }] [("n", PyVal.str "42")] =
      Option.none) ∧
    ((execute [("calc", { name := "calc",
                          function := fun a => Except.ok (ToolResult.ok (pyReprArgs a)),
                          parameters := [{ name := "n", typeHint := ParamType.int }],
                          requiresPermission := false })]
        "/ws" (some (fun _ _ => true)) "calc" [("n", PyVal.str "42")] =
       match ({ name := "calc",
                function := fun a => Except.ok (ToolResult.ok (pyReprArgs a)),
                parameters := [{ name := "n", typeHint := ParamType.int }],
                requiresPermission := false } : ToolDefinition).function
              (injectArgs { name := "calc",
                            function := fun a => Except.ok (ToolResult.ok (pyReprArgs a)),
                            parameters := [{ name := "n", typeHint := ParamType.int }],
                            requiresPermission := false } "/ws" [("n", PyVal.str "42")]) with
       | Except.ok r => r
       | Except.error msg => ToolResult.fail msg (tracebackText msg) ToolStatus.failure) ∧
    (∀ k : String, k ≠ "workspace" → k ≠ "permissions" →
       (injectArgs { name := "calc",
                     function := fun a => Except.ok (ToolResult.ok (pyReprArgs a)),
                     parameters := [{ name := "n", typeHint := ParamType.int }],
                     requiresPermission := false } "/ws" [("n", PyVal.str "42")]).lookup k =
         [("n", PyVal.str "42")].lookup k)) :=
  ⟨rfl, rfl,
   c10_validation_coercion_check_only
     [("calc", { name := "calc",
                 function := fun a => Except.ok (ToolResult.ok (pyReprArgs a)),
                 parameters := [{ name := "n", typeHint := ParamType.int }],
                 requiresPermission := false })]
     "/ws" (some (fun _ _ => true)) "calc" [("n", PyVal.str "42")]
     { name := "calc",
       function := fun a => Except.ok (ToolResult.ok (pyReprArgs a)),
       parameters := [{ name := "n", typeHint := ParamType.int }],
       requiresPermission := false }
     rfl rfl rfl⟩

/-- C2 counterexample: a cycle whose response parses to no tool calls
at all (and is not a completion phrase) increments the effective-turn
counter, although no executed call — a fortiori no substantive one —
occurred, refuting the claimed "if and only if". -/
theorem c2_no_call_cycle_increments_counter :
    (questCycle ["read", "grep", "todowrite"] (fun _ => ToolResult.ok "")
        "hello" {}).effectiveTurns = 1 ∧
    parseTools ["read", "grep", "todowrite"] "hello" = [] := by
  constructor <;> decide

/-- C2 amended: in an ITERATING cycle, the effective-turn counter is
incremented exactly when at least one executed call is substantive
(not the todowrite meta-tool), or when the cycle executed no tool calls
and was not recognised as completion (a "thinking" cycle, which the
source deliberately counts); a cycle of only meta-tool calls does not
increment it. -/
theorem c2_effective_turn_increment_rule
    (knownTools : List String) (execF : ToolCall → ToolResult)
    (response : String) (s : QuestState) :
    (questCycle knownTools execF response s).effectiveTurns =
      (if (parseTools knownTools response ≠ [] ∧
             (parseTools knownTools response).any (fun c => c.name ≠ "todowrite") = true) ∨
          (parseTools knownTools response = [] ∧ isTaskComplete response = false)
       then s.effectiveTurns + 1 else s.effectiveTurns) := by
  unfold questCycle
  cases hp : parseTools knownTools response with
  | nil => cases hc : isTaskComplete response <;> simp [hp, hc]
  | cons c0 rest =>
      cases ha : (c0 :: rest).any (fun c => decide (c.name ≠ "todowrite")) with
      | false =>
          have ha' := ha
          simp only [List.any_eq_false, decide_eq_true_eq, not_not] at ha'
          have hP : ¬ (¬c0.name = "todowrite" ∨ ∃ x ∈ rest, ¬x.name = "todowrite") := by
            push_neg
            exact ⟨ha' c0 (List.mem_cons_self _ _),
                   fun x hx => ha' x (List.mem_cons.2 (Or.inr hx))⟩
          simp [hp, ha, hP]
      | true =>
          have ha' := ha
          simp only [List.any_eq_true, decide_eq_true_eq] at ha'
          have hP : ¬c0.name = "todowrite" ∨ ∃ x ∈ rest, ¬x.name = "todowrite" := by
            rcases ha' with ⟨x, hx, hxn⟩
            rcases List.mem_cons.1 hx with h | h
            · exact Or.inl (h ▸ hxn)
            · exact Or.inr ⟨x, h, hxn⟩
          simp [hp, ha, hP]

/-- C9: evaluation at the failing input.  The response
`Tool: read(path="a.py")` parses to two executed calls (the prefixed
and the bare grammar each produce one), yet the cycle appends exactly
one tool-role entry to the session: `session.add_tool_result` sits
after the `for` loop and records only the loop variable's final value,
so one entry is appended per substantive cycle, not one per executed
call. -/
theorem c9_two_calls_single_session_entry :
    (parseTools ["read", "grep", "todowrite"] "Tool: read(path=\"a.py\")").length = 2 ∧
    ((questCycle ["read", "grep", "todowrite"] (fun _ => ToolResult.ok "data")
        "Tool: read(path=\"a.py\")" {}).sessionMsgs.countP isToolRole) = 1 := by
  constructor <;> decide

theorem questCycle_meta_only (knownTools : List String) (execF : ToolCall → ToolResult)
    (response : String) (s : QuestState)
    (hne : parseTools knownTools response ≠ [])
    (hall : ∀ c ∈ parseTools knownTools response, c.name = "todowrite") :
    (questCycle knownTools execF response s).effectiveTurns = s.effectiveTurns ∧
    (questCycle knownTools execF response s).done = s.done := by
  unfold questCycle
  cases hp : parseTools knownTools response with
  | nil => exact absurd hp hne
  | cons c0 rest =>
      rw [hp] at hall
      have hP : ¬ (¬c0.name = "todowrite" ∨ ∃ x ∈ rest, ¬x.name = "todowrite") := by
        push_neg
        exact ⟨hall c0 (List.mem_cons_self _ _),
               fun x hx => hall x (List.mem_cons.2 (Or.inr hx))⟩
      simp [hP]

/-- C1: with every backend response parsing to a non-empty list of
meta-tool (todowrite) calls only, the effective-turn counter is never
incremented — and, contrary to the claim, no raw-iteration safeguard
exists: after any number of raw iterations the loop's exit guard has
still not fired (counter still 0, no break), so `run_quest` never
terminates on such input. -/
theorem c1_meta_only_quest_never_exits
    (knownTools : List String) (execF : ToolCall → ToolResult)
    (respF : Nat → String) (maxIter : Nat)
    (hmax : 0 < maxIter)
    (hmeta : ∀ i : Nat, parseTools knownTools (respF i) ≠ [] ∧
        ∀ c ∈ parseTools knownTools (respF i), c.name = "todowrite") :
    ∀ n : Nat, ∀ s : QuestState, s.effectiveTurns = 0 → s.done = false →
      (questLoop knownTools execF respF maxIter n s).effectiveTurns = 0 ∧
      (questLoop knownTools execF respF maxIter n s).done = false := by
  intro n
  induction n with
  | zero => intro s h1 h2; exact ⟨h1, h2⟩
  | succ n ih =>
      intro s h1 h2
      have hguard : ¬ (s.done = true ∨ maxIter ≤ s.effectiveTurns) := by
        rw [h1, h2]
        simp
        omega
      unfold questLoop
      rw [if_neg hguard]
      have hc := questCycle_meta_only knownTools execF (respF s.iteration) s
        (hmeta s.iteration).1 (hmeta s.iteration).2
      exact ih _ (hc.1.trans h1) (hc.2.trans h2)

/-- Closed witness for C1: a registry knowing todowrite, every response
being a todowrite call, `max_iterations = 10`: after 3 raw iterations
the counter is still 0 and the loop has not exited. -/
theorem c1_meta_only_quest_never_exits_witness :
    0 < 10 ∧
    ((questLoop ["todowrite"] (fun _ => ToolResult.ok "")
        (fun _ => "Tool: todowrite(items=\"x\")") 10 3 {}).effectiveTurns = 0 ∧
     (questLoop ["todowrite"] (fun _ => ToolResult.ok "")
        (fun _ => "Tool: todowrite(items=\"x\")") 10 3 {}).done = false) :=
  ⟨by decide,
   c1_meta_only_quest_never_exits ["todowrite"] (fun _ => ToolResult.ok "")
     (fun _ => "Tool: todowrite(items=\"x\")") 10 (by decide)
     (fun _ =>
       (⟨by decide, by decide⟩ :
         parseTools ["todowrite"] "Tool: todowrite(items=\"x\")" ≠ [] ∧
         ∀ c ∈ parseTools ["todowrite"] "Tool: todowrite(items=\"x\")",
           c.name = "todowrite"))
     3 {} rfl rfl⟩

theorem eraseFirst_cons_self (t : Msg) (rest : List Msg) :
    eraseFirst (t :: rest) t = rest := by
  simp [eraseFirst]

theorem filter_eraseFirst_of_pos (p : Msg → Bool) (t : Msg) (ht : p t = true) :
    ∀ msgs : List Msg, (eraseFirst msgs t).filter p = eraseFirst (msgs.filter p) t := by
  intro msgs
  induction msgs with
  | nil => rfl
  | cons m rest ih =>
      by_cases hm : m = t
      · subst hm
        simp [eraseFirst, List.filter_cons, ht]
      · cases hpm : p m with
        | true => simp [eraseFirst, hm, List.filter_cons, hpm, ih]
        | false => simp [eraseFirst, hm, List.filter_cons, hpm, ih]

theorem filter_eraseFirst_of_neg (p : Msg → Bool) (t : Msg) (ht : p t = false) :
    ∀ msgs : List Msg, (eraseFirst msgs t).filter p = msgs.filter p := by
  intro msgs
  induction msgs with
  | nil => rfl
  | cons m rest ih =>
      by_cases hm : m = t
      · subst hm
        simp [eraseFirst, List.filter_cons, ht]
      · cases hpm : p m with
        | true => simp [eraseFirst, hm, List.filter_cons, hpm, ih]
        | false => simp [eraseFirst, hm, List.filter_cons, hpm, ih]

theorem dropPhase_spec (budget floor : Nat) (p q : Msg → Bool)
    (hdisj : ∀ m, p m = true → q m = false) :
    ∀ (snap msgs : List Msg), msgs.filter p = snap →
      (dropPhase budget floor snap msgs).filter q = msgs.filter q ∧
      (floor ≤ snap.length → floor ≤ ((dropPhase budget floor snap msgs).filter p).length) := by
  intro snap
  induction snap with
  | nil =>
      intro msgs hfil
      constructor
      · rfl
      · intro hle
        simpa [dropPhase, hfil] using hle
  | cons t rest ih =>
      intro msgs hfil
      have hpt : p t = true := by
        have : t ∈ msgs.filter p := by
          rw [hfil]; exact List.mem_cons_self t rest
        exact (List.mem_filter.1 this).2
      unfold dropPhase
      by_cases hcond : budget < estimateTokens msgs ∧ floor < (t :: rest).length
      · rw [if_pos hcond]
        have hfil' : (eraseFirst msgs t).filter p = rest := by
          rw [filter_eraseFirst_of_pos p t hpt, hfil, eraseFirst_cons_self]
        rcases ih (eraseFirst msgs t) hfil' with ⟨ihq, ihp⟩
        constructor
        · rw [ihq, filter_eraseFirst_of_neg q t (hdisj t hpt)]
        · intro _
          have : floor ≤ rest.length := by
            have := hcond.2
            simp only [List.length_cons] at this
            omega
          exact ihp this
      · rw [if_neg hcond]
        constructor
        · rfl
        · intro hle
          rw [hfil]
          exact hle

theorem endsWithMarker_truncContent (c : String) :
    endsWithMarker (truncContent c) = true := by
  unfold endsWithMarker truncContent String.toList
  rw [String.data_append, List.reverse_append]
  exact List.isPrefixOf_iff_prefix.2 (List.prefix_append _ _)

theorem truncRel_refl (m : Msg) : truncRel m m :=
  ⟨rfl, rfl, rfl, Or.inl rfl⟩

theorem forall₂_truncRel_refl : ∀ l : List Msg, List.Forall₂ truncRel l l := by
  intro l
  induction l with
  | nil => exact List.Forall₂.nil
  | cons m rest ih => exact List.Forall₂.cons (truncRel_refl m) ih

theorem truncRel_trans {a b c : Msg} (h1 : truncRel a b) (h2 : truncRel b c) :
    truncRel a c := by
  obtain ⟨r1, t1, s1, c1⟩ := h1
  obtain ⟨r2, t2, s2, c2⟩ := h2
  refine ⟨r2.trans r1, t2.trans t1, s2.trans s1, ?_⟩
  rcases c2 with c2 | c2
  · rcases c1 with c1 | c1
    · exact Or.inl (c2.trans c1)
    · exact Or.inr (c2 ▸ c1)
  · exact Or.inr c2

theorem forall₂_truncRel_trans : ∀ {l₁ l₂ l₃ : List Msg},
    List.Forall₂ truncRel l₁ l₂ → List.Forall₂ truncRel l₂ l₃ →
      List.Forall₂ truncRel l₁ l₃ := by
  intro l₁ l₂ l₃ h1
  induction h1 generalizing l₃ with
  | nil =>
      intro h2
      cases h2
      exact List.Forall₂.nil
  | cons hab hrest ih =>
      intro h2
      cases h2 with
      | cons hbc hrest2 =>
          exact List.Forall₂.cons (truncRel_trans hab hbc) (ih hrest2)

theorem forall₂_truncRel_applyTrunc : ∀ (l : List Msg) (i : Nat),
    List.Forall₂ truncRel l (applyTrunc l i) := by
  intro l
  induction l with
  | nil => intro i; exact List.Forall₂.nil
  | cons m rest ih =>
      intro i
      cases i with
      | zero =>
          exact List.Forall₂.cons
            ⟨rfl, rfl, rfl, Or.inr (endsWithMarker_truncContent m.content)⟩
            (forall₂_truncRel_refl rest)
      | succ i => exact List.Forall₂.cons (truncRel_refl m) (ih i)

theorem forall₂_truncRel_truncLoop (target : Nat) :
    ∀ (idxs : List Nat) (msgs : List Msg),
      List.Forall₂ truncRel msgs (truncLoop target idxs msgs) := by
  intro idxs
  induction idxs with
  | nil => intro msgs; exact forall₂_truncRel_refl msgs
  | cons i rest ih =>
      intro msgs
      unfold truncLoop
      by_cases hle : estimateTokens msgs ≤ target
      · rw [if_pos hle]
        exact forall₂_truncRel_refl msgs
      · rw [if_neg hle]
        exact forall₂_truncRel_trans (forall₂_truncRel_applyTrunc msgs i) (ih _)

theorem forall₂_truncRel_truncateLong (target : Nat) (msgs : List Msg) :
    List.Forall₂ truncRel msgs (truncateLongMessages target msgs) := by
  unfold truncateLongMessages
  by_cases hle : estimateTokens msgs ≤ target
  · rw [if_pos hle]
    exact forall₂_truncRel_refl msgs
  · rw [if_neg hle]
    exact forall₂_truncRel_truncLoop target _ msgs

theorem countP_eq_of_forall₂_truncRel (p : Msg → Bool)
    (hrole : ∀ a b : Msg, b.role = a.role → p b = p a) :
    ∀ {l₁ l₂ : List Msg}, List.Forall₂ truncRel l₁ l₂ →
      l₂.countP p = l₁.countP p := by
  intro l₁ l₂ h
  induction h with
  | nil => rfl
  | cons hab _ ih =>
      rw [List.countP_cons, List.countP_cons, ih, hrole _ _ hab.1]

/-- C8: for a session over budget with at least 2 tool entries and at
least 5 user/assistant entries, after `prune_context` either the
estimate is within budget, or both floors survive and every entry kept
by the removal phases reaches the final state with its role and tool
metadata intact and its content either untouched or truncated in place —
entries are never dropped below the floors.  (The right disjunct in fact
always holds: the removal loops stop at their floors by construction
and the truncation phase only rewrites content.) -/
theorem c8_prune_preserves_floors (budget : Nat) (msgs : List Msg)
    (hover : budget < estimateTokens msgs)
    (htool : 2 ≤ msgs.countP isToolRole)
    (hconv : 5 ≤ msgs.countP isConvRole) :
    estimateTokens (pruneContext budget msgs) ≤ budget ∨
    (2 ≤ (pruneContext budget msgs).countP isToolRole ∧
     5 ≤ (pruneContext budget msgs).countP isConvRole ∧
     List.Forall₂ truncRel (afterRemovals budget msgs) (pruneContext budget msgs)) := by
  right
  have hdisj1 : ∀ m : Msg, isToolRole m = true → isConvRole m = false := by
    intro m h
    have : m.role = "tool" := by simpa [isToolRole] using h
    simp [isConvRole, this]
  have hdisj2 : ∀ m : Msg, isConvRole m = true → isToolRole m = false := by
    intro m h
    have : m.role = "user" ∨ m.role = "assistant" := by
      simpa [isConvRole] using h
    rcases this with h' | h' <;> simp [isToolRole, h']
  have hroleTool : ∀ a b : Msg, b.role = a.role → isToolRole b = isToolRole a := by
    intro a b h; simp [isToolRole, h]
  have hroleConv : ∀ a b : Msg, b.role = a.role → isConvRole b = isConvRole a := by
    intro a b h; simp [isConvRole, h]
  set m1 := dropPhase budget 2 (msgs.filter isToolRole) msgs with hm1
  rcases dropPhase_spec budget 2 isToolRole isConvRole hdisj1
      (msgs.filter isToolRole) msgs rfl with ⟨h1q, h1p⟩
  set m2 := dropPhase budget 5 (msgs.filter isConvRole) m1 with hm2
  rcases dropPhase_spec budget 5 isConvRole isToolRole hdisj2
      (msgs.filter isConvRole) m1 h1q with ⟨h2q, h2p⟩
  have hafter : afterRemovals budget msgs = m2 := by
    rw [hm2, hm1]
    rfl
  have htool2 : 2 ≤ m2.countP isToolRole := by
    rw [List.countP_eq_length_filter, h2q]
    have := h1p (by rwa [List.countP_eq_length_filter] at htool)
    exact this
  have hconv2 : 5 ≤ m2.countP isConvRole := by
    rw [List.countP_eq_length_filter]
    exact h2p (by rwa [List.countP_eq_length_filter] at hconv)
  have hprune : pruneContext budget msgs =
      if budget < estimateTokens m2 then truncateLongMessages budget m2 else m2 := by
    unfold pruneContext
    rw [if_neg (by omega), ← hafter]
  by_cases hcase : budget < estimateTokens m2
  · rw [hprune, if_pos hcase, hafter]
    have hrel := forall₂_truncRel_truncateLong budget m2
    refine ⟨?_, ?_, hrel⟩
    · rw [countP_eq_of_forall₂_truncRel isToolRole hroleTool hrel]
      exact htool2
    · rw [countP_eq_of_forall₂_truncRel isConvRole hroleConv hrel]
      exact hconv2
  · rw [hprune, if_neg hcase, hafter]
    exact ⟨htool2, hconv2, forall₂_truncRel_refl m2⟩

/-- Closed witness for C8: a seven-entry session (2 tool entries, 5
conversational ones) over a zero budget. -/
theorem c8_prune_preserves_floors_witness :
    (0 < estimateTokens
        [mkToolMsg "read" true "alpha", mkToolMsg "grep" true "beta",
         mkRoleMsg "user" "hi", mkRoleMsg "assistant" "hello",
         mkRoleMsg "user" "go on", mkRoleMsg "assistant" "sure",
         mkRoleMsg "user" "thanks"] ∧
     2 ≤ ([mkToolMsg "read" true "alpha", mkToolMsg "grep" true "beta",
           mkRoleMsg "user" "hi", mkRoleMsg "assistant" "hello",
           mkRoleMsg "user" "go on", mkRoleMsg "assistant" "sure",
           mkRoleMsg "user" "thanks"] : List Msg).countP isToolRole ∧
     5 ≤ ([mkToolMsg "read" true "alpha", mkToolMsg "grep" true "beta",
           mkRoleMsg "user" "hi", mkRoleMsg "assistant" "hello",
           mkRoleMsg "user" "go on", mkRoleMsg "assistant" "sure",
           mkRoleMsg "user" "thanks"] : List Msg).countP isConvRole) ∧
    (estimateTokens (pruneContext 0
        [mkToolMsg "read" true "alpha", mkToolMsg "grep" true "beta",
         mkRoleMsg "user" "hi", mkRoleMsg "assistant" "hello",
         mkRoleMsg "user" "go on", mkRoleMsg "assistant" "sure",
         mkRoleMsg "user" "thanks"]) ≤ 0 ∨
     (2 ≤ (pruneContext 0
         [mkToolMsg "read" true "alpha", mkToolMsg "grep" true "beta",
          mkRoleMsg "user" "hi", mkRoleMsg "assistant" "hello",
          mkRoleMsg "user" "go on", mkRoleMsg "assistant" "sure",
          mkRoleMsg "user" "thanks"]).countP isToolRole ∧
      5 ≤ (pruneContext 0
         [mkToolMsg "read" true "alpha", mkToolMsg "grep" true "beta",
          mkRoleMsg "user" "hi", mkRoleMsg "assistant" "hello",
          mkRoleMsg "user" "go on", mkRoleMsg "assistant" "sure",
          mkRoleMsg "user" "thanks"]).countP isConvRole ∧
      List.Forall₂ truncRel
        (afterRemovals 0
          [mkToolMsg "read" true "alpha", mkToolMsg "grep" true "beta",
           mkRoleMsg "user" "hi", mkRoleMsg "assistant" "hello",
           mkRoleMsg "user" "go on", mkRoleMsg "assistant" "sure",
           mkRoleMsg "user" "thanks"])
        (pruneContext 0
          [mkToolMsg "read" true "alpha", mkToolMsg "grep" true "beta",
           mkRoleMsg "user" "hi", mkRoleMsg "assistant" "hello",
           mkRoleMsg "user" "go on", mkRoleMsg "assistant" "sure",
           mkRoleMsg "user" "thanks"]))) :=
  ⟨⟨by decide, by decide, by decide⟩,
   c8_prune_preserves_floors 0
     [mkToolMsg "read" true "alpha", mkToolMsg "grep" true "beta",
      mkRoleMsg "user" "hi", mkRoleMsg "assistant" "hello",
      mkRoleMsg "user" "go on", mkRoleMsg "assistant" "sure",
      mkRoleMsg "user" "thanks"]
     (by decide) (by decide) (by decide)⟩

end RxDsec
